import Mathlib

/-!
Verification of the design-ingestion pipeline of `scripts/ingest_designs.py`.

The script is a single-threaded batch procedure: for each scanned file it
computes a content hash, consults a remote store (Supabase) to classify the
file as an exact duplicate / new version / brand-new design, and performs the
corresponding uploads and record writes, accumulating run statistics.

Shallow embedding conventions:
* The remote store is modelled as an explicit `Store` value (lists of records);
  every Supabase query/insert/update of the script becomes a pure function on
  `Store`.
* Python strings are modelled as Lean `String` restricted to the ASCII
  fragment the script manipulates; `str.lower`, `str.strip`, `str.title`,
  `Path.stem` and the regex pipeline of `slugify` are re-implemented
  faithfully below (`pyLower`, `pyStrip`, `pyTitle`, `pathStem`, `slugify`).
* External effects whose outcome the script merely observes (filesystem
  preview lookup, preview generation success, the AI response, and whether a
  given remote call raises) are passed in as explicit fields of a per-file
  context `FileCtx`; a raising call is modelled as an error exit at the
  corresponding program point.
-/

namespace Ingest

/-! ### Python string primitives -/

/-- ASCII lower-casing of one character, as Python `str.lower` acts on the
ASCII characters the script manipulates. -/
def lowerChar (c : Char) : Char :=
  if 'A' ≤ c ∧ c ≤ 'Z' then Char.ofNat (c.toNat + 32) else c

/-- ASCII upper-casing of one character (used by `str.title`). -/
def upperChar (c : Char) : Char :=
  if 'a' ≤ c ∧ c ≤ 'z' then Char.ofNat (c.toNat - 32) else c

/-- A cased character in the ASCII fragment: a letter. -/
def isCased (c : Char) : Bool :=
  ('a' ≤ c ∧ c ≤ 'z') ∨ ('A' ≤ c ∧ c ≤ 'Z')

/-- Python whitespace (the characters `str.strip` and `\s` treat as blank). -/
def isPyWS (c : Char) : Bool :=
  c = ' ' ∨ c = '\t' ∨ c = '\n' ∨ c = '\r' ∨ c = '\x0b' ∨ c = '\x0c'

/-- Python `str.lower` on the ASCII fragment. -/
def pyLower (s : String) : String :=
  String.mk (s.toList.map lowerChar)

/-- Drop leading and trailing characters satisfying `p` (the common shape of
Python `str.strip()` and `str.strip("-")`). -/
def stripChars (p : Char → Bool) (l : List Char) : List Char :=
  ((l.dropWhile p).reverse.dropWhile p).reverse

/-- Python `str.strip()`: drop leading and trailing whitespace. -/
def pyStrip (s : String) : String :=
  String.mk (stripChars isPyWS s.toList)

/-- Python `str.title` on a character list: a cased character that follows a
non-cased character is upper-cased, other cased characters are lower-cased.
The boolean argument records whether the previous character was cased. -/
def pyTitleAux : Bool → List Char → List Char
  | _, [] => []
  | prevCased, c :: rest =>
      (if prevCased then lowerChar c else upperChar c) :: pyTitleAux (isCased c) rest

/-- Python `str.title` on the ASCII fragment. -/
def pyTitle (s : String) : String :=
  String.mk (pyTitleAux false s.toList)

/-- Index of the last occurrence of `c` in the list, if any
(Python `str.rfind`). -/
def rfindIdx (c : Char) : List Char → Option Nat
  | [] => none
  | a :: rest =>
      match rfindIdx c rest with
      | some i => some (i + 1)
      | none => if a = c then some 0 else none

/-- `pathlib.Path(name).stem`: the final path component without its suffix.
The suffix is the part after the last dot, provided that dot is neither the
first nor the last character of the name. -/
def pathStem (name : String) : String :=
  let cs := name.toList
  match rfindIdx '.' cs with
  | none => name
  | some i => if 0 < i ∧ i + 1 < cs.length then String.mk (cs.take i) else name

/-! ### `slugify` (lines 351-357 of the script)

```python
slug = text.lower()
slug = re.sub(r"[^\w\s-]", "", slug)
slug = re.sub(r"[\s_-]+", "-", slug)
slug = slug.strip("-")
```
-/

/-- A regex `\w` word character in the ASCII fragment. -/
def isWordChar (c : Char) : Bool :=
  c.isAlphanum ∨ c = '_'

/-- A character of the class `[\s_-]` collapsed to `-` by `slugify`. -/
def isSepChar (c : Char) : Bool :=
  isPyWS c ∨ c = '_' ∨ c = '-'

/-- `re.sub(r"[\s_-]+", "-", ·)`: replace each maximal run of separator
characters by one hyphen.  The boolean records whether the previous kept
character came from a separator run. -/
def collapseSepAux : Bool → List Char → List Char
  | _, [] => []
  | prevSep, c :: rest =>
      if isSepChar c then
        if prevSep then collapseSepAux true rest
        else '-' :: collapseSepAux true rest
      else c :: collapseSepAux false rest

/-- `str.strip("-")`: drop leading and trailing hyphens. -/
def stripHyphens (cs : List Char) : List Char :=
  stripChars (fun c => c = '-') cs

/-- `DesignIngester.slugify`. -/
def slugify (text : String) : String :=
  let s1 := (pyLower text).toList
  let s2 := s1.filter (fun c => isWordChar c ∨ isPyWS c ∨ c = '-')
  let s3 := collapseSepAux false s2
  String.mk (stripHyphens s3)

/-! ### Metadata (`AIMetadata`, `_generate_basic_metadata`) -/

/-- The `AIMetadata` dataclass of the script. -/
structure AIMetadata where
  title : String
  description : String
  project_type : Option String
  difficulty : Option String
  materials : List String
  categories : List String
  style : Option String
  tags : List String
  approx_dimensions : Option String
deriving Repr, DecidableEq

/-- `DesignIngester._generate_basic_metadata`: title from the filename stem
with `-` and `_` replaced by spaces (two successive single-character
`str.replace` calls, modelled character-wise) and then title-cased; every
other field empty or absent. -/
def generate_basic_metadata (filename : String) : AIMetadata :=
  let name := pathStem filename
  let title :=
    pyTitle (String.mk (((name.toList.map (fun c => if c = '-' then ' ' else c)).map
      (fun c => if c = '_' then ' ' else c))))
  { title := title
    description := ""
    project_type := none
    difficulty := none
    materials := []
    categories := []
    style := none
    tags := []
    approx_dimensions := none }

/-! ### The remote store

The four Supabase relations the script reads and writes, modelled as lists of
records.  `next_id` models the id sequence of the database: every insert
receives the current `next_id` and bumps it. -/

/-- A row of the `designs` relation, with the columns the script writes. -/
structure DesignRec where
  id : Nat
  slug : String
  title : String
  description : String
  preview_path : String
  project_type : Option String
  difficulty : Option String
  materials : List String
  categories : List String
  style : Option String
  approx_dimensions : Option String
  metadata_tags : List String
  is_public : Bool
  current_version_id : Option Nat
  updated_at : Nat
deriving Repr, DecidableEq

/-- A row of the `design_files` relation. -/
structure DesignFileRec where
  id : Nat
  design_id : Nat
  storage_path : String
  file_type : String
  size_bytes : Nat
  content_hash : String
  preview_phash : Option String
  source_path : String
  version_number : Nat
  is_active : Bool
deriving Repr, DecidableEq

/-- A row of the `tags` relation. -/
structure TagRec where
  id : Nat
  name : String
deriving Repr, DecidableEq

/-- The remote store: the four relations plus the id sequence. -/
structure Store where
  designs : List DesignRec
  design_files : List DesignFileRec
  tags : List TagRec
  design_tags : List (Nat × Nat)
  next_id : Nat
deriving Repr, DecidableEq

/-- Environment-derived configuration `NEXT_PUBLIC_SUPABASE_URL`; its value is
irrelevant to every claim, only its occurrence in the preview URL matters. -/
def SUPABASE_URL : String := "https://store.example"

/-! ### Store operations (lines 359-491 of the script) -/

/-- `DesignIngester.check_duplicate`: first `design_files` row whose
`content_hash` equals the given hash, if any. -/
def check_duplicate (s : Store) (content_hash : String) : Option DesignFileRec :=
  s.design_files.find? (fun f => f.content_hash = content_hash)

/-- The accumulator step realizing the `order("version_number", desc=True)
.limit(1)` part of the source-path query: keep the row with the larger
version number (the first seen on ties). -/
def pickNewest (acc : Option DesignFileRec) (f : DesignFileRec) :
    Option DesignFileRec :=
  match acc with
  | none => some f
  | some g => if g.version_number < f.version_number then some f else acc

/-- `DesignIngester.find_by_source_path`: among the `design_files` rows whose
`source_path` matches, the one the query `order("version_number", desc=True)
.limit(1)` returns, i.e. a row of maximal `version_number`. -/
def find_by_source_path (s : Store) (source_path : String) : Option DesignFileRec :=
  (s.design_files.filter (fun f => f.source_path = source_path)).foldl
    pickNewest none

/-- One iteration of the loop body of `DesignIngester._link_tags`: normalize
the tag string (`lower` then `strip`), skip it when empty, look up or create
the `tags` row, then insert the join row, ignoring a duplicate-link failure. -/
def link_tag_one (s : Store) (design_id : Nat) (raw : String) : Store :=
  let tag_name := pyStrip (pyLower raw)
  if tag_name = "" then s
  else
    let found := s.tags.find? (fun t => t.name = tag_name)
    let s1 : Store :=
      match found with
      | some _ => s
      | none =>
          { s with tags := s.tags ++ [{ id := s.next_id, name := tag_name }]
                   next_id := s.next_id + 1 }
    let tag_id : Nat :=
      match found with
      | some t => t.id
      | none => s.next_id
    if (design_id, tag_id) ∈ s1.design_tags then s1
    else { s1 with design_tags := s1.design_tags ++ [(design_id, tag_id)] }

/-- `DesignIngester._link_tags`: fold `link_tag_one` over the tag list. -/
def link_tags (s : Store) (design_id : Nat) (tag_names : List String) : Store :=
  tag_names.foldl (fun st raw => link_tag_one st design_id raw) s

/-- The `designs` row `create_design` inserts: slug from the title, suffixed
with the current timestamp when a design with the base slug already exists. -/
def newDesignRec (s : Store) (metadata : AIMetadata) (preview_path : String)
    (now : Nat) : DesignRec :=
  { id := s.next_id
    slug :=
      if s.designs.any (fun d => d.slug = slugify metadata.title) then
        slugify metadata.title ++ "-" ++ toString now
      else slugify metadata.title
    title := metadata.title
    description := metadata.description
    preview_path := preview_path
    project_type := metadata.project_type
    difficulty := metadata.difficulty
    materials := metadata.materials
    categories := metadata.categories
    style := metadata.style
    approx_dimensions := metadata.approx_dimensions
    metadata_tags := metadata.tags
    is_public := true
    current_version_id := none
    updated_at := now }

/-- `DesignIngester.create_design`: slugify the title, suffix the slug with
the current timestamp when a design with the base slug already exists, insert
the `designs` row, then link the tags.  `now` is the value of
`int(datetime.now().timestamp())`.  Returns the new store and the design id. -/
def create_design (s : Store) (metadata : AIMetadata) (preview_path : String)
    (now : Nat) : Store × Nat :=
  let d := newDesignRec s metadata preview_path now
  let s1 : Store := { s with designs := s.designs ++ [d], next_id := s.next_id + 1 }
  (link_tags s1 d.id metadata.tags, d.id)

/-- `DesignIngester.create_design_file`: insert a `design_files` row with
`is_active = True`.  Returns the new store and the file id. -/
def create_design_file (s : Store) (design_id : Nat) (storage_path : String)
    (file_type : String) (size_bytes : Nat) (content_hash : String)
    (preview_phash : Option String) (source_path : String)
    (version_number : Nat) : Store × Nat :=
  let f : DesignFileRec :=
    { id := s.next_id
      design_id := design_id
      storage_path := storage_path
      file_type := file_type
      size_bytes := size_bytes
      content_hash := content_hash
      preview_phash := preview_phash
      source_path := source_path
      version_number := version_number
      is_active := true }
  ({ s with design_files := s.design_files ++ [f], next_id := s.next_id + 1 },
   s.next_id)

/-- `DesignIngester.update_current_version`: deactivate every other file of
the design, then set the design's current-version pointer and refresh its
updated timestamp. -/
def update_current_version (s : Store) (design_id : Nat) (file_id : Nat)
    (now : Nat) : Store :=
  { s with
    design_files := s.design_files.map (fun f =>
      if f.design_id = design_id ∧ f.id ≠ file_id then { f with is_active := false }
      else f)
    designs := s.designs.map (fun d =>
      if d.id = design_id then
        { d with current_version_id := some file_id, updated_at := now }
      else d) }

/-! ### Preview resolver (`find_preview_for_design`, lines 132-159)

`PREVIEW_EXTENSIONS` is a Python `set` literal; its iteration order is
unspecified (string hashing is randomized per process), so the resolver takes
the order as an explicit parameter `extOrder`, constrained in theorems to be a
permutation of the literal's elements.  The filesystem around the design file
is modelled by the list `fs` of the paths that exist, written relative to the
design file's directory, and the design file itself by its `stem`. -/

/-- The elements of the `PREVIEW_EXTENSIONS` set literal. -/
def PREVIEW_EXTENSIONS : List String := [".png", ".jpg", ".jpeg", ".webp"]

/-- The elements of the `SUPPORTED_EXTENSIONS` set literal. -/
def SUPPORTED_EXTENSIONS : List String := [".svg", ".dxf", ".ai", ".eps", ".pdf", ".cdr"]

/-- `DesignIngester.find_preview_for_design`: for each image extension in the
set's iteration order, try the four naming conventions in the order of the
loop body — same stem, `_preview` suffix, `-preview` suffix, `previews/`
subdirectory — and return the first candidate that exists. -/
def find_preview_for_design (fs : List String) (extOrder : List String)
    (stem : String) : Option String :=
  extOrder.findSome? (fun ext =>
    if (stem ++ ext) ∈ fs then some (stem ++ ext)
    else if (stem ++ "_preview" ++ ext) ∈ fs then some (stem ++ "_preview" ++ ext)
    else if (stem ++ "-preview" ++ ext) ∈ fs then some (stem ++ "-preview" ++ ext)
    else if ("previews/" ++ stem ++ ext) ∈ fs then some ("previews/" ++ stem ++ ext)
    else none)

/-- Modelled from the spec (for comparison only): the lookup order the spec
describes — all same-stem candidates across every image extension, then all
`_preview` candidates, then all `-preview` candidates, then the `previews/`
directory candidates. -/
def find_preview_spec_order (fs : List String) (extOrder : List String)
    (stem : String) : Option String :=
  match extOrder.findSome? (fun ext =>
      if (stem ++ ext) ∈ fs then some (stem ++ ext) else none) with
  | some p => some p
  | none =>
    match extOrder.findSome? (fun ext =>
        if (stem ++ "_preview" ++ ext) ∈ fs then some (stem ++ "_preview" ++ ext)
        else none) with
    | some p => some p
    | none =>
      match extOrder.findSome? (fun ext =>
          if (stem ++ "-preview" ++ ext) ∈ fs then some (stem ++ "-preview" ++ ext)
          else none) with
      | some p => some p
      | none =>
        extOrder.findSome? (fun ext =>
          if ("previews/" ++ stem ++ ext) ∈ fs then some ("previews/" ++ stem ++ ext)
          else none)

/-- The flat candidate list the resolver actually scans: extension-major, the
four naming conventions inside each extension. -/
def previewCandidates (extOrder : List String) (stem : String) : List String :=
  extOrder.flatMap (fun ext =>
    [stem ++ ext, stem ++ "_preview" ++ ext, stem ++ "-preview" ++ ext,
     "previews/" ++ stem ++ ext])

/-! ### Run statistics and the per-file pipeline (`process_file`, lines
493-608, and the scan loop of `scan_directory`, lines 632-638) -/

/-- The `self.stats` counters of `DesignIngester`. -/
structure Stats where
  scanned : Nat
  skipped_duplicate : Nat
  new_designs : Nat
  new_versions : Nat
  errors : Nat
  previews_generated : Nat
deriving Repr, DecidableEq

/-- The all-zero initial statistics of `DesignIngester.__init__`. -/
def Stats.init : Stats :=
  { scanned := 0, skipped_duplicate := 0, new_designs := 0, new_versions := 0,
    errors := 0, previews_generated := 0 }

/-- Observable external actions of one `process_file` call: uploads to object
storage, the AI metadata request, and a fall-back to filename-derived
metadata. -/
inductive Ev where
  | upload (bucket : String) (remote_path : String)
  | aiRequest
  | basicMetadata
deriving Repr, DecidableEq

/-- Per-file context: the intrinsic attributes of the scanned file together
with the outcome of every external interaction `process_file` performs.  A
`*_ok = false` field means the corresponding call raises at that program
point; outcomes of calls that the script catches internally
(`sibling_preview`, `gen_ok`, `phash`, `ai_meta`) are plain values. -/
structure FileCtx where
  /-- `file_path.relative_to(base_dir)` as a string. -/
  relative_path : String
  /-- `file_path.name`. -/
  filename : String
  /-- `file_path.suffix` (with the dot). -/
  suffix : String
  /-- `file_path.stat().st_size`. -/
  size_bytes : Nat
  /-- the SHA-256 digest `compute_content_hash` would return. -/
  content_hash : String
  /-- `int(datetime.now().timestamp())` and `datetime.now().isoformat()`
  during this file, collapsed to one clock value. -/
  now : Nat
  /-- does `compute_content_hash` complete without raising (I/O)? -/
  hash_ok : Bool
  /-- does the `check_duplicate` store query complete without raising? -/
  dup_query_ok : Bool
  /-- does the `find_by_source_path` store query complete without raising? -/
  path_query_ok : Bool
  /-- result of `find_preview_for_design` (a sibling preview path), if any. -/
  sibling_preview : Option String
  /-- does `generate_preview` succeed?  Its own failures are caught inside
  and reported as `False`, so it never raises. -/
  gen_ok : Bool
  /-- result of `compute_phash` (its failures are caught inside). -/
  phash : Option String
  /-- is the OpenAI client configured (`self.openai` non-`None`)? -/
  ai_configured : Bool
  /-- the parsed `AIMetadata` of a successful AI call; `none` when the call
  or the JSON parse fails (caught inside, falls back to basic metadata). -/
  ai_meta : Option AIMetadata
  /-- does the preview `upload_file` call complete without raising? -/
  upload_preview_ok : Bool
  /-- does the design-file `upload_file` call complete without raising? -/
  upload_design_ok : Bool
  /-- does `create_design` (its inserts and un-guarded tag queries) complete
  without raising? -/
  create_design_ok : Bool
  /-- does `create_design_file` complete without raising? -/
  create_file_ok : Bool
  /-- does `update_current_version` complete without raising? -/
  update_ok : Bool
deriving Repr, DecidableEq

/-- Result of one `process_file` call: the store and statistics after the
call (partial mutations persist when an exception escapes), the external
actions performed, whether a generated temporary preview file is still on
disk when the call is over, and whether an exception escaped. -/
structure PfResult where
  store : Store
  stats : Stats
  events : List Ev
  temp_exists : Bool
  error : Bool
deriving Repr, DecidableEq

/-- Error exit of `process_file`: the exception propagates to the scan loop
with the mutations made so far. -/
def pfErr (s : Store) (st : Stats) (evs : List Ev) (temp : Bool) : PfResult :=
  { store := s, stats := st, events := evs, temp_exists := temp, error := true }

/-- The `if existing:` branch of `process_file` (lines 533-560): upload the
source file to the next versioned storage path, create the new `design_files`
row, then switch the current-version pointer.  `temp_created` records whether
a temporary preview file was generated earlier, `phash` is the perceptual
hash computed earlier. -/
def pf_new_version (f : FileCtx) (s : Store) (st : Stats) (ex : DesignFileRec)
    (temp_created : Bool) (phash : Option String) : PfResult :=
  let design_id := ex.design_id
  let version_number := ex.version_number + 1
  let storage_path :=
    "files/" ++ toString design_id ++ "/v" ++ toString version_number ++ f.suffix
  if ¬ f.upload_design_ok then pfErr s st [] temp_created else
  let evs := [Ev.upload "designs" storage_path]
  if ¬ f.create_file_ok then pfErr s st evs temp_created else
  let r := create_design_file s design_id storage_path
    (((pyLower f.suffix).toList.dropWhile (· = '.')).asString) f.size_bytes
    f.content_hash phash f.relative_path version_number
  if ¬ f.update_ok then pfErr r.1 st evs temp_created else
  let s2 := update_current_version r.1 design_id r.2 f.now
  { store := s2
    stats := { st with new_versions := st.new_versions + 1 }
    events := evs
    temp_exists := false
    error := false }

/-- The `else` (brand-new design) branch of `process_file` (lines 562-604):
extract metadata (AI when configured and a preview is available, otherwise
filename-derived), upload the preview, create the Design row (which links the
tags), upload the source file, create the version-1 `design_files` row, then
set the current-version pointer. -/
def pf_new_design (f : FileCtx) (s : Store) (st : Stats)
    (preview_avail temp_created : Bool) (phash : Option String) : PfResult :=
  let metadata :=
    if preview_avail then
      if f.ai_configured then
        match f.ai_meta with
        | some m => m
        | none => generate_basic_metadata f.filename
      else generate_basic_metadata f.filename
    else generate_basic_metadata f.filename
  let evs0 : List Ev :=
    if preview_avail ∧ f.ai_configured then [Ev.aiRequest] else []
  let evs0 := evs0 ++
    (if preview_avail ∧ f.ai_configured ∧ f.ai_meta.isSome then []
     else [Ev.basicMetadata])
  if preview_avail ∧ ¬ f.upload_preview_ok then pfErr s st evs0 temp_created else
  let preview_remote :=
    slugify metadata.title ++ "-" ++ f.content_hash.take 8 ++ ".png"
  let evs := evs0 ++
    (if preview_avail then [Ev.upload "previews" preview_remote] else [])
  let preview_storage_path :=
    if preview_avail then
      SUPABASE_URL ++ "/storage/v1/object/public/previews/" ++ preview_remote
    else ""
  if ¬ f.create_design_ok then pfErr s st evs temp_created else
  let rd := create_design s metadata preview_storage_path f.now
  let storage_path := "files/" ++ toString rd.2 ++ "/v1" ++ f.suffix
  if ¬ f.upload_design_ok then pfErr rd.1 st evs temp_created else
  let evs := evs ++ [Ev.upload "designs" storage_path]
  if ¬ f.create_file_ok then pfErr rd.1 st evs temp_created else
  let rf := create_design_file rd.1 rd.2 storage_path
    (((pyLower f.suffix).toList.dropWhile (· = '.')).asString) f.size_bytes
    f.content_hash phash f.relative_path 1
  if ¬ f.update_ok then pfErr rf.1 st evs temp_created else
  let s2 := update_current_version rf.1 rd.2 rf.2 f.now
  { store := s2
    stats := { st with new_designs := st.new_designs + 1 }
    events := evs
    temp_exists := false
    error := false }

/-- `DesignIngester.process_file`.  A raising remote call is modelled as an
error exit at its program point, before the call's own write takes effect;
no claim depends on the partially-written row of the failing call itself. -/
def process_file (f : FileCtx) (s : Store) (st : Stats) : PfResult :=
  let st := { st with scanned := st.scanned + 1 }
  if ¬ f.hash_ok then pfErr s st [] false else
  if ¬ f.dup_query_ok then pfErr s st [] false else
  match check_duplicate s f.content_hash with
  | some _ =>
      { store := s
        stats := { st with skipped_duplicate := st.skipped_duplicate + 1 }
        events := []
        temp_exists := false
        error := false }
  | none =>
  if ¬ f.path_query_ok then pfErr s st [] false else
  -- preview: a sibling preview, or a generated temporary one
  let preview_avail := f.sibling_preview.isSome ∨ f.gen_ok
  let temp_created := f.sibling_preview.isNone ∧ f.gen_ok
  let st := if f.sibling_preview.isNone ∧ f.gen_ok then
      { st with previews_generated := st.previews_generated + 1 } else st
  let phash := if preview_avail then f.phash else none
  match find_by_source_path s f.relative_path with
  | some ex => pf_new_version f s st ex temp_created phash
  | none => pf_new_design f s st preview_avail temp_created phash

/-- The `for file_path in tqdm(...)` loop of `DesignIngester.scan_directory`:
process each file, catching any exception and counting it as an error. -/
def scan_loop (files : List FileCtx) (s : Store) (st : Stats) : Store × Stats :=
  files.foldl
    (fun acc f =>
      let r := process_file f acc.1 acc.2
      if r.error then (r.store, { r.stats with errors := r.stats.errors + 1 })
      else (r.store, r.stats))
    (s, st)

/-! ### Example fixtures used by witnesses and counterexamples -/

/-- An empty store, as a fresh database. -/
def exStore0 : Store :=
  { designs := [], design_files := [], tags := [], design_tags := [], next_id := 1 }

/-- A scanned file whose every external interaction succeeds: no sibling
preview, preview generation succeeds, AI not configured. -/
def exCtx : FileCtx :=
  { relative_path := "designs/coaster.svg", filename := "coaster.svg",
    suffix := ".svg", size_bytes := 100, content_hash := "aabbccddeeff0011",
    now := 42, hash_ok := true, dup_query_ok := true, path_query_ok := true,
    sibling_preview := none, gen_ok := true, phash := some "ph",
    ai_configured := false, ai_meta := none, upload_preview_ok := true,
    upload_design_ok := true, create_design_ok := true, create_file_ok := true,
    update_ok := true }

/-- The store after ingesting `exCtx` into the empty store: one design
(id 1) and one active version-1 file (id 2). -/
def exStore1 : Store := (process_file exCtx exStore0 Stats.init).store

/-- The version-1 file record of `exStore1`. -/
def exFileV1 : DesignFileRec :=
  { id := 2, design_id := 1, storage_path := "files/1/v1.svg",
    file_type := "svg", size_bytes := 100, content_hash := "aabbccddeeff0011",
    preview_phash := some "ph", source_path := "designs/coaster.svg",
    version_number := 1, is_active := true }

/-- The same file re-scanned with changed bytes (a new content hash). -/
def exCtxV2 : FileCtx := { exCtx with content_hash := "ffff000011112222" }

/-- The changed file, but the design-file upload raises. -/
def exCtxUploadFail : FileCtx := { exCtxV2 with upload_design_ok := false }

/-- A file whose content hashing raises (an I/O failure). -/
def exCtxHashFail : FileCtx := { exCtx with hash_ok := false }

/-- Metadata whose title is `"Box"` (no tags). -/
def exMetaBox : AIMetadata :=
  { title := "Box", description := "", project_type := none, difficulty := none,
    materials := [], categories := [], style := none, tags := [],
    approx_dimensions := none }

/-- Store after creating one design titled `"Box"` at timestamp 100. -/
def exStoreBox1 : Store := (create_design exStore0 exMetaBox "" 100).1

/-- Store after creating a second design titled `"Box"` at timestamp 100. -/
def exStoreBox2 : Store := (create_design exStoreBox1 exMetaBox "" 100).1

/-- Store after creating a third design titled `"Box"` at timestamp 100. -/
def exStoreBox3 : Store := (create_design exStoreBox2 exMetaBox "" 100).1

/-- A directory holding a `_preview` match for `.png` and a same-stem match
for `.jpg`. -/
def exFsA : List String := ["foo_preview.png", "foo.jpg"]

/-- A directory holding a `_preview` match for `.jpg` and a same-stem match
for `.png`. -/
def exFsB : List String := ["foo_preview.jpg", "foo.png"]

/-- All 24 iteration orders a 4-element set can present (used to show the
preview-order divergence is independent of the set's iteration order). -/
def exExtOrders : List (List String) := [
  [".png", ".jpg", ".jpeg", ".webp"],
  [".png", ".jpg", ".webp", ".jpeg"],
  [".png", ".jpeg", ".jpg", ".webp"],
  [".png", ".jpeg", ".webp", ".jpg"],
  [".png", ".webp", ".jpg", ".jpeg"],
  [".png", ".webp", ".jpeg", ".jpg"],
  [".jpg", ".png", ".jpeg", ".webp"],
  [".jpg", ".png", ".webp", ".jpeg"],
  [".jpg", ".jpeg", ".png", ".webp"],
  [".jpg", ".jpeg", ".webp", ".png"],
  [".jpg", ".webp", ".png", ".jpeg"],
  [".jpg", ".webp", ".jpeg", ".png"],
  [".jpeg", ".png", ".jpg", ".webp"],
  [".jpeg", ".png", ".webp", ".jpg"],
  [".jpeg", ".jpg", ".png", ".webp"],
  [".jpeg", ".jpg", ".webp", ".png"],
  [".jpeg", ".webp", ".png", ".jpg"],
  [".jpeg", ".webp", ".jpg", ".png"],
  [".webp", ".png", ".jpg", ".jpeg"],
  [".webp", ".png", ".jpeg", ".jpg"],
  [".webp", ".jpg", ".png", ".jpeg"],
  [".webp", ".jpg", ".jpeg", ".png"],
  [".webp", ".jpeg", ".png", ".jpg"],
  [".webp", ".jpeg", ".jpg", ".png"]
]

/-- The highest version number among the `design_files` rows recorded for a
given source path (0 when none exists). -/
def maxVersionFor (s : Store) (source_path : String) : Nat :=
  ((s.design_files.filter (fun f => f.source_path = source_path)).map
    (fun f => f.version_number)).foldr max 0

/-- The counter invariant of claim C10: every scanned file is accounted for
by exactly one terminal outcome. -/
def statsBalanced (st : Stats) : Prop :=
  st.scanned = st.skipped_duplicate + st.new_designs + st.new_versions + st.errors

/-! ### Helper lemmas: characters -/

theorem char_toNat_ofNat (n : Nat) (h : n.isValidChar) : (Char.ofNat n).toNat = n := by
  unfold Char.ofNat
  rw [dif_pos h]
  unfold Char.ofNatAux
  rfl

theorem lowerChar_of_upper (c : Char) (h : 65 ≤ c.toNat) (h2 : c.toNat ≤ 90) :
    (lowerChar c).toNat = c.toNat + 32 := by
  unfold lowerChar
  rw [if_pos ⟨h, h2⟩]
  exact char_toNat_ofNat _ (Or.inl (by omega))

theorem lowerChar_of_not_upper (c : Char) (h : ¬ (65 ≤ c.toNat ∧ c.toNat ≤ 90)) :
    lowerChar c = c := by
  unfold lowerChar
  rw [if_neg]
  intro hc
  exact h ⟨hc.1, hc.2⟩

theorem lowerChar_idem (c : Char) : lowerChar (lowerChar c) = lowerChar c := by
  by_cases h : 65 ≤ c.toNat ∧ c.toNat ≤ 90
  · have ht : (lowerChar c).toNat = c.toNat + 32 := lowerChar_of_upper c h.1 h.2
    exact lowerChar_of_not_upper _ (by omega)
  · rw [lowerChar_of_not_upper c h, lowerChar_of_not_upper c h]

theorem isPyWS_false_of_ge (d : Char) (hd : 33 ≤ d.toNat) : isPyWS d = false := by
  have e1 : (' ' : Char).toNat = 32 := rfl
  have e2 : ('\t' : Char).toNat = 9 := rfl
  have e3 : ('\n' : Char).toNat = 10 := rfl
  have e4 : ('\r' : Char).toNat = 13 := rfl
  have e5 : ('\x0b' : Char).toNat = 11 := rfl
  have e6 : ('\x0c' : Char).toNat = 12 := rfl
  unfold isPyWS
  simp only [decide_eq_false_iff_not]
  push_neg
  refine ⟨?_, ?_, ?_, ?_, ?_, ?_⟩ <;>
    (intro he; have := congrArg Char.toNat he; omega)

theorem isPyWS_lowerChar (c : Char) : isPyWS (lowerChar c) = isPyWS c := by
  by_cases h : 65 ≤ c.toNat ∧ c.toNat ≤ 90
  · have ht : (lowerChar c).toNat = c.toNat + 32 := lowerChar_of_upper c h.1 h.2
    rw [isPyWS_false_of_ge _ (by omega), isPyWS_false_of_ge _ (by omega)]
  · rw [lowerChar_of_not_upper c h]

/-! ### Helper lemmas: lists and strings -/

theorem dropWhile_shape (p : Char → Bool) (l : List Char) :
    l.dropWhile p = [] ∨ ∃ a t, l.dropWhile p = a :: t ∧ p a = false := by
  induction l with
  | nil => exact Or.inl rfl
  | cons a t ih =>
    by_cases h : p a = true
    · simpa [List.dropWhile, h] using ih
    · exact Or.inr ⟨a, t, by simp [List.dropWhile, h],
        by simpa using h⟩

theorem stripChars_idem (p : Char → Bool) (l : List Char) :
    stripChars p (stripChars p l) = stripChars p l := by
  unfold stripChars
  set A := l.dropWhile p with hA
  set B := A.reverse.dropWhile p with hB
  have hRA : B.reverse <+: A := by
    have h1 : B <:+ A.reverse := List.dropWhile_suffix p
    have h2 : B.reverse <+: A.reverse.reverse := List.reverse_prefix.mpr h1
    rwa [List.reverse_reverse] at h2
  have claim1 : B.reverse.dropWhile p = B.reverse := by
    cases hr : B.reverse with
    | nil => rfl
    | cons a t =>
      obtain ⟨rest, hrest⟩ := hRA
      rw [hr] at hrest
      have hAeq : A = a :: (t ++ rest) := by rw [← hrest]; rfl
      have hpa : p a = false := by
        rcases dropWhile_shape p l with h0 | ⟨b, tb, hbt, hpb⟩
        · rw [← hA] at h0
          rw [h0] at hAeq
          exact absurd hAeq (by simp)
        · rw [← hA] at hbt
          rw [hbt] at hAeq
          have : b = a := (List.cons.injEq _ _ _ _ ▸ hAeq).1
          rwa [this] at hpb
      simp [List.dropWhile, hpa]
  have claim2 : B.dropWhile p = B := by
    rw [hB, List.dropWhile_idempotent]
  rw [claim1, List.reverse_reverse, claim2]

theorem map_lowerChar_idem (l : List Char) :
    (l.map lowerChar).map lowerChar = l.map lowerChar := by
  rw [List.map_map]
  have : lowerChar ∘ lowerChar = lowerChar := funext lowerChar_idem
  rw [this]

theorem dropWhile_isPyWS_map_lowerChar (l : List Char) :
    (l.map lowerChar).dropWhile isPyWS = (l.dropWhile isPyWS).map lowerChar := by
  rw [List.dropWhile_map]
  have : isPyWS ∘ lowerChar = isPyWS := funext isPyWS_lowerChar
  rw [this]

theorem stripChars_map_lowerChar (l : List Char) :
    stripChars isPyWS (l.map lowerChar) = (stripChars isPyWS l).map lowerChar := by
  unfold stripChars
  rw [dropWhile_isPyWS_map_lowerChar, ← List.map_reverse,
    dropWhile_isPyWS_map_lowerChar, ← List.map_reverse]

/-- Tag normalization (`lower` then `strip`) is idempotent. -/
theorem normalizeTag_idem (s : String) :
    pyStrip (pyLower (pyStrip (pyLower s))) = pyStrip (pyLower s) := by
  show String.mk (stripChars isPyWS ((stripChars isPyWS (s.toList.map lowerChar)).map lowerChar))
      = String.mk (stripChars isPyWS (s.toList.map lowerChar))
  rw [← stripChars_map_lowerChar, map_lowerChar_idem, stripChars_idem]

/-! ### Claim C1: exact duplicates are skipped entirely -/

/-- Claim C1: for every scanned file whose content hash already matches an
existing `design_files` row, `process_file` terminates in the duplicate
state: `skipped_duplicate` is incremented (besides `scanned`), the store is
returned unchanged (no new Design row, no new DesignFile row, no tag link)
and no upload or other external action is performed. -/
theorem C1_duplicate_skip (f : FileCtx) (s : Store) (st : Stats) (d : DesignFileRec)
    (hh : f.hash_ok = true) (hq : f.dup_query_ok = true)
    (hd : check_duplicate s f.content_hash = some d) :
    process_file f s st =
      { store := s
        stats := { st with
          scanned := st.scanned + 1,
          skipped_duplicate := st.skipped_duplicate + 1 }
        events := []
        temp_exists := false
        error := false } := by
  unfold process_file
  simp [hh, hq, hd]

/-- Witness for C1: re-ingesting the unchanged `coaster.svg` into the store
that already holds it is a no-op apart from the two counters. -/
theorem C1_duplicate_skip_witness :
    process_file exCtx exStore1 Stats.init =
      { store := exStore1
        stats := { Stats.init with
          scanned := Stats.init.scanned + 1,
          skipped_duplicate := Stats.init.skipped_duplicate + 1 }
        events := []
        temp_exists := false
        error := false } :=
  C1_duplicate_skip exCtx exStore1 Stats.init exFileV1 rfl rfl rfl

/-! ### Claim C3: temporary preview cleanup

The cleanup line of `process_file`

```python
if temp_preview and temp_preview.exists():
    temp_preview.unlink()
```

is the last statement of the function and is not guarded by `try/finally`:
when an exception is raised at a later stage (upload, record creation,
pointer update), the exception propagates to the scan loop and the cleanup
line never runs.  Claim C3 therefore fails in its exception half. -/

/-- Claim C3 is refuted: for the concrete changed file whose design-file
upload raises, a preview was generated into a temporary location
(`sibling_preview = none`, generation succeeded), processing ends with the
exception escaping, and the temporary preview file is still on disk. -/
theorem C3_counterexample :
    exCtxUploadFail.sibling_preview = none ∧
    exCtxUploadFail.gen_ok = true ∧
    (process_file exCtxUploadFail exStore1 Stats.init).error = true ∧
    (process_file exCtxUploadFail exStore1 Stats.init).temp_exists = true :=
  ⟨rfl, rfl, rfl, rfl⟩

/-- Outcome analysis of the new-version branch: either an exception escapes
and the statistics are untouched, or the branch succeeds, reports no leaked
temporary file, and increments exactly `new_versions`. -/
theorem pf_new_version_shape (f : FileCtx) (s : Store) (st2 : Stats)
    (ex : DesignFileRec) (tc : Bool) (ph : Option String) :
    ((pf_new_version f s st2 ex tc ph).error = true ∧
      (pf_new_version f s st2 ex tc ph).stats = st2) ∨
    ((pf_new_version f s st2 ex tc ph).error = false ∧
      (pf_new_version f s st2 ex tc ph).temp_exists = false ∧
      (pf_new_version f s st2 ex tc ph).stats =
        { st2 with new_versions := st2.new_versions + 1 }) := by
  unfold pf_new_version
  split_ifs <;> simp [pfErr]

set_option maxHeartbeats 2000000 in
/-- Outcome analysis of the brand-new-design branch: either an exception
escapes and the statistics are untouched, or the branch succeeds, reports no
leaked temporary file, and increments exactly `new_designs`. -/
theorem pf_new_design_shape (f : FileCtx) (s : Store) (st2 : Stats)
    (pa tc : Bool) (ph : Option String) :
    ((pf_new_design f s st2 pa tc ph).error = true ∧
      (pf_new_design f s st2 pa tc ph).stats = st2) ∨
    ((pf_new_design f s st2 pa tc ph).error = false ∧
      (pf_new_design f s st2 pa tc ph).temp_exists = false ∧
      (pf_new_design f s st2 pa tc ph).stats =
        { st2 with new_designs := st2.new_designs + 1 }) := by
  unfold pf_new_design
  rcases hai : f.ai_meta with _ | m <;> simp only [hai] <;> split_ifs <;>
    first | (left; exact ⟨rfl, rfl⟩) | (right; exact ⟨rfl, rfl, rfl⟩)

/-- Lift of `pf_new_version_shape` to statistics fields relative to the
statistics `st` seen at entry of `process_file`. -/
theorem shape_lift_version (f : FileCtx) (s : Store) (st st2 : Stats)
    (ex : DesignFileRec) (tc : Bool) (ph : Option String)
    (hs1 : st2.scanned = st.scanned + 1)
    (hs2 : st2.skipped_duplicate = st.skipped_duplicate)
    (hs3 : st2.new_designs = st.new_designs)
    (hs4 : st2.new_versions = st.new_versions)
    (hs5 : st2.errors = st.errors) :
    ((pf_new_version f s st2 ex tc ph).error = true ∧
      (pf_new_version f s st2 ex tc ph).stats.scanned = st.scanned + 1 ∧
      (pf_new_version f s st2 ex tc ph).stats.skipped_duplicate = st.skipped_duplicate ∧
      (pf_new_version f s st2 ex tc ph).stats.new_designs = st.new_designs ∧
      (pf_new_version f s st2 ex tc ph).stats.new_versions = st.new_versions ∧
      (pf_new_version f s st2 ex tc ph).stats.errors = st.errors) ∨
    ((pf_new_version f s st2 ex tc ph).error = false ∧
      (pf_new_version f s st2 ex tc ph).temp_exists = false ∧
      (pf_new_version f s st2 ex tc ph).stats.scanned = st.scanned + 1 ∧
      (pf_new_version f s st2 ex tc ph).stats.errors = st.errors ∧
      (pf_new_version f s st2 ex tc ph).stats.skipped_duplicate +
          (pf_new_version f s st2 ex tc ph).stats.new_designs +
          (pf_new_version f s st2 ex tc ph).stats.new_versions =
        st.skipped_duplicate + st.new_designs + st.new_versions + 1) := by
  rcases pf_new_version_shape f s st2 ex tc ph with ⟨he, hs⟩ | ⟨he, ht, hs⟩
  · left
    rw [he, hs]
    exact ⟨rfl, hs1, hs2, hs3, hs4, hs5⟩
  · right
    rw [he, ht, hs]
    refine ⟨rfl, rfl, hs1, hs5, ?_⟩
    simp only [hs2, hs3, hs4]
    omega

/-- Lift of `pf_new_design_shape` to statistics fields relative to the
statistics `st` seen at entry of `process_file`. -/
theorem shape_lift_design (f : FileCtx) (s : Store) (st st2 : Stats)
    (pa tc : Bool) (ph : Option String)
    (hs1 : st2.scanned = st.scanned + 1)
    (hs2 : st2.skipped_duplicate = st.skipped_duplicate)
    (hs3 : st2.new_designs = st.new_designs)
    (hs4 : st2.new_versions = st.new_versions)
    (hs5 : st2.errors = st.errors) :
    ((pf_new_design f s st2 pa tc ph).error = true ∧
      (pf_new_design f s st2 pa tc ph).stats.scanned = st.scanned + 1 ∧
      (pf_new_design f s st2 pa tc ph).stats.skipped_duplicate = st.skipped_duplicate ∧
      (pf_new_design f s st2 pa tc ph).stats.new_designs = st.new_designs ∧
      (pf_new_design f s st2 pa tc ph).stats.new_versions = st.new_versions ∧
      (pf_new_design f s st2 pa tc ph).stats.errors = st.errors) ∨
    ((pf_new_design f s st2 pa tc ph).error = false ∧
      (pf_new_design f s st2 pa tc ph).temp_exists = false ∧
      (pf_new_design f s st2 pa tc ph).stats.scanned = st.scanned + 1 ∧
      (pf_new_design f s st2 pa tc ph).stats.errors = st.errors ∧
      (pf_new_design f s st2 pa tc ph).stats.skipped_duplicate +
          (pf_new_design f s st2 pa tc ph).stats.new_designs +
          (pf_new_design f s st2 pa tc ph).stats.new_versions =
        st.skipped_duplicate + st.new_designs + st.new_versions + 1) := by
  rcases pf_new_design_shape f s st2 pa tc ph with ⟨he, hs⟩ | ⟨he, ht, hs⟩
  · left
    rw [he, hs]
    exact ⟨rfl, hs1, hs2, hs3, hs4, hs5⟩
  · right
    rw [he, ht, hs]
    refine ⟨rfl, rfl, hs1, hs5, ?_⟩
    simp only [hs2, hs3, hs4]
    omega

/-- Outcome analysis of one `process_file` call: either an exception escapes
and no outcome counter moved, or the call succeeds, the temporary preview is
gone, and exactly one outcome counter moved.  `scanned` is incremented and
`errors` untouched in both cases. -/
theorem process_file_shape (f : FileCtx) (s : Store) (st : Stats) :
    ((process_file f s st).error = true ∧
      (process_file f s st).stats.scanned = st.scanned + 1 ∧
      (process_file f s st).stats.skipped_duplicate = st.skipped_duplicate ∧
      (process_file f s st).stats.new_designs = st.new_designs ∧
      (process_file f s st).stats.new_versions = st.new_versions ∧
      (process_file f s st).stats.errors = st.errors) ∨
    ((process_file f s st).error = false ∧
      (process_file f s st).temp_exists = false ∧
      (process_file f s st).stats.scanned = st.scanned + 1 ∧
      (process_file f s st).stats.errors = st.errors ∧
      (process_file f s st).stats.skipped_duplicate +
          (process_file f s st).stats.new_designs +
          (process_file f s st).stats.new_versions =
        st.skipped_duplicate + st.new_designs + st.new_versions + 1) := by
  unfold process_file
  by_cases h1 : f.hash_ok = true
  case neg => left; simp [pfErr, h1]
  by_cases h2 : f.dup_query_ok = true
  case neg => left; simp [pfErr, h1, h2]
  cases hdup : check_duplicate s f.content_hash with
  | some d => right; simp [h1, h2, hdup]; omega
  | none =>
  by_cases h3 : f.path_query_ok = true
  case neg => left; simp [pfErr, h1, h2, h3, hdup]
  cases hex : find_by_source_path s f.relative_path with
  | some ex =>
    simp only [h1, h2, h3, hdup, hex, not_true, ite_false, if_neg, if_false]
    exact shape_lift_version f s st _ ex _ _ (by split_ifs <;> rfl)
      (by split_ifs <;> rfl) (by split_ifs <;> rfl) (by split_ifs <;> rfl)
      (by split_ifs <;> rfl)
  | none =>
    simp only [h1, h2, h3, hdup, hex, not_true, ite_false, if_neg, if_false]
    exact shape_lift_design f s st _ _ _ _ (by split_ifs <;> rfl)
      (by split_ifs <;> rfl) (by split_ifs <;> rfl) (by split_ifs <;> rfl)
      (by split_ifs <;> rfl)

/-- Claim C3 amended: the temporary preview file is removed whenever
processing of the file finishes without an exception; when an exception
escapes at a later stage the cleanup line is not reached and the temporary
file is leaked. -/
theorem C3_cleanup_on_success (f : FileCtx) (s : Store) (st : Stats)
    (h : (process_file f s st).error = false) :
    (process_file f s st).temp_exists = false := by
  rcases process_file_shape f s st with ⟨h2, _⟩ | ⟨_, h2, _⟩
  · rw [h] at h2
    cases h2
  · exact h2

/-- Witness for the amended C3 at a successful ingest. -/
theorem C3_cleanup_on_success_witness :
    (process_file exCtx exStore0 Stats.init).error = false ∧
    (process_file exCtx exStore0 Stats.init).temp_exists = false :=
  ⟨rfl, C3_cleanup_on_success exCtx exStore0 Stats.init rfl⟩

/-! ### Claim C7: preview lookup order

`PREVIEW_EXTENSIONS` is a Python `set`, so its iteration order is
unspecified (string hashing is randomized per process).  The loop of
`find_preview_for_design` is extension-major: for each extension it tries
the four naming conventions, then moves to the next extension.  The claim
asserts a convention-major order (all same-stem candidates across every
extension first); the two orders are observably different. -/

/-- Claim C7 is refuted: with `foo_preview.png` and `foo.jpg` both present
and the `.png` extension iterated first (one legitimate iteration order of
the set literal), the resolver returns `foo_preview.png`, while the claimed
lookup order would return the same-stem candidate `foo.jpg`.  Moreover, for
every one of the 24 possible iteration orders of the extension set, at least
one of the two concrete directories distinguishes the code from the claimed
order, so no iteration order realizes the claimed order. -/
theorem C7_counterexample :
    find_preview_for_design exFsA PREVIEW_EXTENSIONS "foo" = some "foo_preview.png" ∧
    find_preview_spec_order exFsA PREVIEW_EXTENSIONS "foo" = some "foo.jpg" ∧
    exExtOrders.length = 24 ∧ exExtOrders.Nodup ∧
    exExtOrders.all (fun ord => ord.isPerm PREVIEW_EXTENSIONS) = true ∧
    (exExtOrders.all (fun ord =>
      decide (find_preview_for_design exFsA ord "foo" ≠
        find_preview_spec_order exFsA ord "foo") ||
      decide (find_preview_for_design exFsB ord "foo" ≠
        find_preview_spec_order exFsB ord "foo"))) = true := by
  refine ⟨rfl, rfl, rfl, by decide, by decide, by decide⟩

/-- Claim C7 amended: the resolver scans the flat candidate list
extension-major — for each supported image extension, in the set's
iteration order, it tries the same-stem, `_preview`, `-preview` and
`previews/` conventions with that extension, in this order — and returns
the first candidate that exists; when no candidate exists it returns none
and the pipeline falls back to generation. -/
theorem C7_preview_order (fs : List String) (extOrder : List String)
    (stem : String) :
    find_preview_for_design fs extOrder stem =
      (previewCandidates extOrder stem).find? (fun p => p ∈ fs) ∧
    ((∀ p ∈ previewCandidates extOrder stem, p ∉ fs) →
      find_preview_for_design fs extOrder stem = none) := by
  have hmain : find_preview_for_design fs extOrder stem =
      (previewCandidates extOrder stem).find? (fun p => p ∈ fs) := by
    induction extOrder with
    | nil => rfl
    | cons e rest ih =>
      rw [previewCandidates, List.flatMap_cons, List.find?_append,
        ← previewCandidates]
      rw [find_preview_for_design, List.findSome?_cons,
        ← find_preview_for_design, ih]
      by_cases h1 : (stem ++ e) ∈ fs
      · simp [List.find?_cons, h1]
      · by_cases h2 : (stem ++ "_preview" ++ e) ∈ fs
        · simp [List.find?_cons, h1, h2]
        · by_cases h3 : (stem ++ "-preview" ++ e) ∈ fs
          · simp [List.find?_cons, h1, h2, h3]
          · by_cases h4 : ("previews/" ++ stem ++ e) ∈ fs
            · simp [List.find?_cons, h1, h2, h3, h4]
            · simp [List.find?_cons, h1, h2, h3, h4, Option.or]
  refine ⟨hmain, ?_⟩
  intro habs
  rw [hmain]
  rw [List.find?_eq_none]
  intro p hp
  simpa using habs p hp

/-- Witness for the amended C7: a directory with only a `previews/`
candidate for the last-iterated extension. -/
theorem C7_preview_order_witness :
    find_preview_for_design ["previews/foo.webp"] PREVIEW_EXTENSIONS "foo" =
      (previewCandidates PREVIEW_EXTENSIONS "foo").find?
        (fun p => p ∈ ["previews/foo.webp"]) ∧
    ((∀ p ∈ previewCandidates PREVIEW_EXTENSIONS "foo",
        p ∉ ["previews/foo.webp"]) →
      find_preview_for_design ["previews/foo.webp"] PREVIEW_EXTENSIONS "foo" = none) :=
  C7_preview_order ["previews/foo.webp"] PREVIEW_EXTENSIONS "foo"

/-! ### Claim C5: slug collision handling -/

/-- Linking one tag never touches the `designs` relation. -/
theorem link_tag_one_designs (s : Store) (d : Nat) (raw : String) :
    (link_tag_one s d raw).designs = s.designs := by
  unfold link_tag_one
  rcases h : s.tags.find? (fun t => t.name = pyStrip (pyLower raw)) with _ | t <;>
    simp only [h] <;> split_ifs <;> rfl

/-- Linking a tag list never touches the `designs` relation. -/
theorem link_tags_designs (s : Store) (d : Nat) (names : List String) :
    (link_tags s d names).designs = s.designs := by
  induction names generalizing s with
  | nil => rfl
  | cons n rest ih =>
    show (link_tags (link_tag_one s d n) d rest).designs = s.designs
    rw [ih, link_tag_one_designs]

/-- Claim C5 is refuted: three designs whose titles all slugify to the base
slug `"box"`, created at the same integer timestamp, receive the slugs
`box`, `box-100`, `box-100` — the second and third colliding designs get
the same slug, so slugs do not remain unique across all designs. -/
theorem C5_counterexample :
    slugify exMetaBox.title = "box" ∧
    exStoreBox3.designs.map (fun d => d.slug) = ["box", "box-100", "box-100"] :=
  ⟨rfl, rfl⟩

/-- Claim C5 amended: the first design with a given base slug receives the
base slug; any later colliding design receives the base slug suffixed with
the current timestamp, which always differs from the base slug itself — but
two later colliders that share the same timestamp receive identical slugs,
so global uniqueness is not guaranteed. -/
theorem C5_slug_on_collision (s : Store) (m : AIMetadata) (p : String) (now : Nat) :
    ∃ d : DesignRec,
      (create_design s m p now).1.designs = s.designs ++ [d] ∧
      d.slug = (if s.designs.any (fun e => e.slug = slugify m.title) then
          slugify m.title ++ "-" ++ toString now
        else slugify m.title) ∧
      (s.designs.any (fun e => e.slug = slugify m.title) = true →
        d.slug ≠ slugify m.title) := by
  refine ⟨newDesignRec s m p now, ?_, rfl, ?_⟩
  · show (link_tags
        { s with
          designs := s.designs ++ [newDesignRec s m p now],
          next_id := s.next_id + 1 }
        (newDesignRec s m p now).id m.tags).designs = _
    rw [link_tags_designs]
  · intro hc heq
    have heq2 : (if s.designs.any (fun e => e.slug = slugify m.title) then
        slugify m.title ++ "-" ++ toString now
      else slugify m.title) = slugify m.title := heq
    rw [if_pos hc] at heq2
    have hlen := congrArg String.length heq2
    rw [String.length_append, String.length_append] at hlen
    have h1 : ("-" : String).length = 1 := rfl
    omega

/-- Witness for the amended C5 at a store already holding a design whose
slug is the base slug `"box"`. -/
theorem C5_slug_on_collision_witness :
    ∃ d : DesignRec,
      (create_design exStoreBox1 exMetaBox "" 100).1.designs =
        exStoreBox1.designs ++ [d] ∧
      d.slug = (if exStoreBox1.designs.any
            (fun e => e.slug = slugify exMetaBox.title) then
          slugify exMetaBox.title ++ "-" ++ toString 100
        else slugify exMetaBox.title) ∧
      (exStoreBox1.designs.any (fun e => e.slug = slugify exMetaBox.title) = true →
        d.slug ≠ slugify exMetaBox.title) :=
  C5_slug_on_collision exStoreBox1 exMetaBox "" 100

/-! ### Claim C6: tag normalization and linking -/

/-- Effect of one tag-link step when no Tag row with the normalized name
exists yet: the Tag row is created with the current id, and the join row for
this design is present afterwards (inserted, or already there). -/
theorem link_tag_one_absent (s : Store) (d : Nat) (raw : String)
    (hne : pyStrip (pyLower raw) ≠ "")
    (habs : s.tags.find? (fun tg => tg.name = pyStrip (pyLower raw)) = none) :
    (link_tag_one s d raw).tags =
      s.tags ++ [{ id := s.next_id, name := pyStrip (pyLower raw) }] ∧
    (link_tag_one s d raw).next_id = s.next_id + 1 ∧
    (d, s.next_id) ∈ (link_tag_one s d raw).design_tags ∧
    (∀ x ∈ s.design_tags, x ∈ (link_tag_one s d raw).design_tags) := by
  unfold link_tag_one
  simp only [habs, if_neg hne]
  split_ifs with hmem
  · exact ⟨rfl, rfl, hmem, fun x hx => hx⟩
  · refine ⟨rfl, rfl, ?_, ?_⟩
    · simp
    · intro x hx
      simp [hx]

/-- Effect of one tag-link step when a Tag row with the normalized name
already exists: no Tag row is created, and the join row for this design is
present afterwards. -/
theorem link_tag_one_present (s : Store) (d : Nat) (raw : String) (tg : TagRec)
    (hne : pyStrip (pyLower raw) ≠ "")
    (hfind : s.tags.find? (fun x => x.name = pyStrip (pyLower raw)) = some tg) :
    (link_tag_one s d raw).tags = s.tags ∧
    (d, tg.id) ∈ (link_tag_one s d raw).design_tags ∧
    (∀ x ∈ s.design_tags, x ∈ (link_tag_one s d raw).design_tags) := by
  unfold link_tag_one
  simp only [hfind, if_neg hne]
  split_ifs with hmem
  · exact ⟨rfl, hmem, fun x hx => hx⟩
  · refine ⟨rfl, ?_, ?_⟩
    · simp
    · intro x hx
      simp [hx]

/-- Claim C6: tag normalization (lowercase then trim) is idempotent; a tag
string that normalizes to the empty string is skipped and changes nothing;
and for two tag strings that normalize to the same non-empty name not yet
present in the store, linking them to two designs creates exactly one Tag
row with that name and links both designs to that single row. -/
theorem C6_tag_normalization (t1 t2 : String) (s : Store) (dA dB : Nat)
    (hnorm : pyStrip (pyLower t1) = pyStrip (pyLower t2))
    (hne : pyStrip (pyLower t1) ≠ "")
    (habs : s.tags.find? (fun tg => tg.name = pyStrip (pyLower t1)) = none) :
    (∀ u : String, pyStrip (pyLower (pyStrip (pyLower u))) = pyStrip (pyLower u)) ∧
    (∀ (s2 : Store) (d : Nat) (u : String), pyStrip (pyLower u) = "" →
      link_tags s2 d [u] = s2) ∧
    ((link_tags (link_tags s dA [t1]) dB [t2]).tags.filter
        (fun tg => tg.name = pyStrip (pyLower t1))).length = 1 ∧
    { id := s.next_id, name := pyStrip (pyLower t1) } ∈
      (link_tags (link_tags s dA [t1]) dB [t2]).tags ∧
    (dA, s.next_id) ∈ (link_tags (link_tags s dA [t1]) dB [t2]).design_tags ∧
    (dB, s.next_id) ∈ (link_tags (link_tags s dA [t1]) dB [t2]).design_tags := by
  have hone1 : link_tags s dA [t1] = link_tag_one s dA t1 := rfl
  have hone2 : ∀ s3 : Store, link_tags s3 dB [t2] = link_tag_one s3 dB t2 :=
    fun s3 => rfl
  obtain ⟨htags1, hnext1, hmem1, hkeep1⟩ := link_tag_one_absent s dA t1 hne habs
  have hne2 : pyStrip (pyLower t2) ≠ "" := by rw [← hnorm]; exact hne
  have hfind2 : (link_tag_one s dA t1).tags.find?
      (fun x => x.name = pyStrip (pyLower t2)) =
      some { id := s.next_id, name := pyStrip (pyLower t1) } := by
    rw [htags1, ← hnorm, List.find?_append, habs]
    simp
  obtain ⟨htags2, hmem2, hkeep2⟩ :=
    link_tag_one_present (link_tag_one s dA t1) dB t2
      { id := s.next_id, name := pyStrip (pyLower t1) } hne2 hfind2
  refine ⟨normalizeTag_idem, ?_, ?_, ?_, ?_, ?_⟩
  · intro s2 d u hu
    show link_tag_one s2 d u = s2
    unfold link_tag_one
    rw [if_pos hu]
  · rw [hone1, hone2, htags2, htags1, List.filter_append]
    have hnil : s.tags.filter (fun tg => tg.name = pyStrip (pyLower t1)) = [] := by
      rw [List.filter_eq_nil_iff]
      intro a ha
      have := List.find?_eq_none.mp habs a ha
      simpa using this
    rw [hnil]
    simp
  · rw [hone1, hone2, htags2, htags1]
    simp
  · rw [hone1, hone2]
    exact hkeep2 _ hmem1
  · rw [hone1, hone2]
    exact hmem2

/-- Witness for C6: `"Wood"` and `"wood "` both normalize to `"wood"` and
end up linked to one single Tag row in the empty store. -/
theorem C6_tag_normalization_witness :
    (∀ u : String, pyStrip (pyLower (pyStrip (pyLower u))) = pyStrip (pyLower u)) ∧
    (∀ (s2 : Store) (d : Nat) (u : String), pyStrip (pyLower u) = "" →
      link_tags s2 d [u] = s2) ∧
    ((link_tags (link_tags exStore0 7 ["Wood"]) 8 ["wood "]).tags.filter
        (fun tg => tg.name = pyStrip (pyLower "Wood"))).length = 1 ∧
    { id := exStore0.next_id, name := pyStrip (pyLower "Wood") } ∈
      (link_tags (link_tags exStore0 7 ["Wood"]) 8 ["wood "]).tags ∧
    (7, exStore0.next_id) ∈ (link_tags (link_tags exStore0 7 ["Wood"]) 8 ["wood "]).design_tags ∧
    (8, exStore0.next_id) ∈ (link_tags (link_tags exStore0 7 ["Wood"]) 8 ["wood "]).design_tags :=
  C6_tag_normalization "Wood" "wood " exStore0 7 8 rfl (by decide) rfl

/-! ### Claims C2 and C4: the new-version branch -/

/-- Folding `pickNewest` from a seeded row yields a row whose version number
is the maximum of the seed's and all the list's version numbers. -/
theorem pickNewest_foldl_some (l : List DesignFileRec) (a : DesignFileRec) :
    ∃ g, l.foldl pickNewest (some a) = some g ∧
      g.version_number = max a.version_number
        ((l.map (fun f => f.version_number)).foldr max 0) := by
  induction l generalizing a with
  | nil =>
    refine ⟨a, rfl, ?_⟩
    simp
  | cons f t ih =>
    rw [List.foldl_cons]
    by_cases h : a.version_number < f.version_number
    · obtain ⟨g, hg, hv⟩ := ih f
      refine ⟨g, ?_, ?_⟩
      · have hstep : pickNewest (some a) f = some f := by
          simp [pickNewest, h]
        rw [hstep]
        exact hg
      · rw [hv]
        simp only [List.map_cons, List.foldr_cons]
        omega
    · obtain ⟨g, hg, hv⟩ := ih a
      refine ⟨g, ?_, ?_⟩
      · have hstep : pickNewest (some a) f = some a := by
          simp [pickNewest, h]
        rw [hstep]
        exact hg
      · rw [hv]
        simp only [List.map_cons, List.foldr_cons]
        omega

/-- The row returned by `find_by_source_path` carries the highest version
number recorded for that source path. -/
theorem find_by_source_path_version (s : Store) (p : String) (ex : DesignFileRec)
    (hex : find_by_source_path s p = some ex) :
    ex.version_number = maxVersionFor s p := by
  unfold find_by_source_path at hex
  unfold maxVersionFor
  cases hl : s.design_files.filter (fun f => f.source_path = p) with
  | nil =>
    rw [hl] at hex
    cases hex
  | cons f t =>
    rw [hl] at hex
    rw [List.foldl_cons] at hex
    obtain ⟨g, hg, hv⟩ := pickNewest_foldl_some t f
    have : pickNewest none f = some f := rfl
    rw [this] at hex
    rw [hex] at hg
    cases hg
    simp only [List.map_cons, List.foldr_cons]
    omega

/-- In the new-version branch with all remote calls succeeding, the result
is exactly: upload, new `design_files` row, pointer switch. -/
theorem pf_new_version_ok (f : FileCtx) (s : Store) (st : Stats)
    (ex : DesignFileRec) (tc : Bool) (ph : Option String)
    (hu : f.upload_design_ok = true) (hc : f.create_file_ok = true)
    (ho : f.update_ok = true) :
    (pf_new_version f s st ex tc ph).error = false ∧
    (pf_new_version f s st ex tc ph).store =
      update_current_version
        (create_design_file s ex.design_id
          ("files/" ++ toString ex.design_id ++ "/v" ++
            toString (ex.version_number + 1) ++ f.suffix)
          (((pyLower f.suffix).toList.dropWhile (· = '.')).asString) f.size_bytes
          f.content_hash ph f.relative_path (ex.version_number + 1)).1
        ex.design_id s.next_id f.now ∧
    (pf_new_version f s st ex tc ph).events =
      [Ev.upload "designs" ("files/" ++ toString ex.design_id ++ "/v" ++
        toString (ex.version_number + 1) ++ f.suffix)] := by
  refine ⟨?_, ?_, ?_⟩ <;> simp [pf_new_version, hu, hc, ho] <;> rfl

/-- When the file is no duplicate but its source path is known, the pipeline
takes the new-version branch. -/
theorem process_file_version_branch (f : FileCtx) (s : Store) (st : Stats)
    (ex : DesignFileRec)
    (hh : f.hash_ok = true) (hq : f.dup_query_ok = true)
    (hp : f.path_query_ok = true)
    (hdup : check_duplicate s f.content_hash = none)
    (hex : find_by_source_path s f.relative_path = some ex) :
    ∃ (st2 : Stats) (tc : Bool) (ph : Option String),
      process_file f s st = pf_new_version f s st2 ex tc ph := by
  exact ⟨_, _, _, by
    unfold process_file
    simp only [hh, hq, hp, hdup, hex, not_true, if_false]
    rfl⟩

/-- After inserting the new version row and switching the pointer, the new
row (id `s.next_id`, version `vn`) is the single active `design_files` row
of the design, provided all pre-existing row ids are below the id sequence. -/
theorem update_after_create_active (s : Store) (did : Nat) (sp ft : String)
    (sz : Nat) (ch : String) (ph : Option String) (rp : String) (vn now : Nat)
    (hwf : ∀ g ∈ s.design_files, g.id < s.next_id) :
    ((update_current_version (create_design_file s did sp ft sz ch ph rp vn).1
        did s.next_id now).design_files.filter
      (fun g => g.design_id = did ∧ g.is_active = true)).map
        (fun g => (g.id, g.version_number)) = [(s.next_id, vn)] := by
  have hmain : (update_current_version (create_design_file s did sp ft sz ch ph rp vn).1
      did s.next_id now).design_files =
      (s.design_files ++ ([{
          id := s.next_id, design_id := did, storage_path := sp,
          file_type := ft, size_bytes := sz, content_hash := ch,
          preview_phash := ph, source_path := rp, version_number := vn,
          is_active := true }] : List DesignFileRec)).map
        (fun g : DesignFileRec => if g.design_id = did ∧ g.id ≠ s.next_id then
          { g with is_active := false } else g) := rfl
  rw [hmain, List.map_append, List.filter_append]
  have h1 : ((s.design_files.map (fun g : DesignFileRec =>
      if g.design_id = did ∧ g.id ≠ s.next_id then
        { g with is_active := false } else g)).filter
      (fun g => g.design_id = did ∧ g.is_active = true)) = [] := by
    rw [List.filter_eq_nil_iff]
    intro g hg
    obtain ⟨g0, hg0, hfg⟩ := List.mem_map.mp hg
    by_cases hcond : g0.design_id = did ∧ g0.id ≠ s.next_id
    · rw [if_pos hcond] at hfg
      rw [← hfg]
      simp
    · rw [if_neg hcond] at hfg
      rw [← hfg]
      push_neg at hcond
      simp only [decide_eq_true_eq, Bool.not_eq_true, decide_eq_false_iff_not]
      intro hpred
      have hid : g0.id = s.next_id := hcond hpred.1
      have := hwf g0 hg0
      omega
  rw [h1]
  simp

/-- Claim C2: a scanned file that is not an exact duplicate but whose
relative source path matches an existing `design_files` row is ingested as a
new version: the new row's version number is the highest existing version
for that source path plus one, and after the pointer update the new row is
the unique active `design_files` row of that design. -/
theorem C2_new_version (f : FileCtx) (s : Store) (st : Stats) (ex : DesignFileRec)
    (hh : f.hash_ok = true) (hq : f.dup_query_ok = true)
    (hp : f.path_query_ok = true) (hu : f.upload_design_ok = true)
    (hc : f.create_file_ok = true) (ho : f.update_ok = true)
    (hdup : check_duplicate s f.content_hash = none)
    (hex : find_by_source_path s f.relative_path = some ex)
    (hwf : ∀ g ∈ s.design_files, g.id < s.next_id) :
    (process_file f s st).error = false ∧
    ((process_file f s st).store.design_files.filter
        (fun g => g.design_id = ex.design_id ∧ g.is_active = true)).map
      (fun g => (g.id, g.version_number)) =
      [(s.next_id, maxVersionFor s f.relative_path + 1)] := by
  obtain ⟨st2, tc, ph, heq⟩ := process_file_version_branch f s st ex hh hq hp hdup hex
  obtain ⟨herr, hstore, hevs⟩ := pf_new_version_ok f s st2 ex tc ph hu hc ho
  rw [heq]
  refine ⟨herr, ?_⟩
  rw [hstore]
  rw [update_after_create_active s ex.design_id _ _ _ _ _ _ _ _ hwf]
  rw [← find_by_source_path_version s f.relative_path ex hex]

/-- Witness for C2: re-ingesting `coaster.svg` with changed bytes creates
version 2 and leaves it as the single active file of design 1. -/
theorem C2_new_version_witness :
    (process_file exCtxV2 exStore1 Stats.init).error = false ∧
    ((process_file exCtxV2 exStore1 Stats.init).store.design_files.filter
        (fun g => g.design_id = exFileV1.design_id ∧ g.is_active = true)).map
      (fun g => (g.id, g.version_number)) =
      [(exStore1.next_id, maxVersionFor exStore1 exCtxV2.relative_path + 1)] :=
  C2_new_version exCtxV2 exStore1 Stats.init exFileV1 rfl rfl rfl rfl rfl rfl
    rfl rfl (by decide)

/-- Claim C4: a file classified as a new version triggers no metadata
extraction — no AI request and no filename-derived metadata — and on the
`designs` relation only the matched design's current-version pointer and
updated timestamp change; titles, descriptions, slugs, classification
fields, preview references, tag rows and tag links all stay unchanged. -/
theorem C4_new_version_frame (f : FileCtx) (s : Store) (st : Stats)
    (ex : DesignFileRec)
    (hh : f.hash_ok = true) (hq : f.dup_query_ok = true)
    (hp : f.path_query_ok = true) (hu : f.upload_design_ok = true)
    (hc : f.create_file_ok = true) (ho : f.update_ok = true)
    (hdup : check_duplicate s f.content_hash = none)
    (hex : find_by_source_path s f.relative_path = some ex) :
    (process_file f s st).error = false ∧
    Ev.aiRequest ∉ (process_file f s st).events ∧
    Ev.basicMetadata ∉ (process_file f s st).events ∧
    (process_file f s st).store.designs = s.designs.map (fun d =>
      if d.id = ex.design_id then
        { d with current_version_id := some s.next_id, updated_at := f.now }
      else d) ∧
    (process_file f s st).store.tags = s.tags ∧
    (process_file f s st).store.design_tags = s.design_tags := by
  obtain ⟨st2, tc, ph, heq⟩ := process_file_version_branch f s st ex hh hq hp hdup hex
  obtain ⟨herr, hstore, hevs⟩ := pf_new_version_ok f s st2 ex tc ph hu hc ho
  rw [heq]
  refine ⟨herr, ?_, ?_, ?_, ?_, ?_⟩
  · rw [hevs]
    simp
  · rw [hevs]
    simp
  · rw [hstore]
    rfl
  · rw [hstore]
    rfl
  · rw [hstore]
    rfl

/-- Witness for C4: the version-2 ingest changes only the pointer and the
timestamp of design 1. -/
theorem C4_new_version_frame_witness :
    (process_file exCtxV2 exStore1 Stats.init).error = false ∧
    Ev.aiRequest ∉ (process_file exCtxV2 exStore1 Stats.init).events ∧
    Ev.basicMetadata ∉ (process_file exCtxV2 exStore1 Stats.init).events ∧
    (process_file exCtxV2 exStore1 Stats.init).store.designs =
      exStore1.designs.map (fun d =>
        if d.id = exFileV1.design_id then
          { d with current_version_id := some exStore1.next_id,
                   updated_at := exCtxV2.now }
        else d) ∧
    (process_file exCtxV2 exStore1 Stats.init).store.tags = exStore1.tags ∧
    (process_file exCtxV2 exStore1 Stats.init).store.design_tags =
      exStore1.design_tags :=
  C4_new_version_frame exCtxV2 exStore1 Stats.init exFileV1 rfl rfl rfl rfl rfl
    rfl rfl rfl

/-! ### The scan loop: claims C9 and C10 -/

/-- Unrolling one iteration of the scan loop. -/
theorem scan_loop_cons (f : FileCtx) (rest : List FileCtx) (s : Store) (st : Stats) :
    scan_loop (f :: rest) s st =
      scan_loop rest (process_file f s st).store
        (if (process_file f s st).error then
          { (process_file f s st).stats with
            errors := (process_file f s st).stats.errors + 1 }
         else (process_file f s st).stats) := by
  unfold scan_loop
  rw [List.foldl_cons]
  cases herr : (process_file f s st).error <;> simp [herr]

/-- The scan loop over a concatenation processes the two parts in order. -/
theorem scan_loop_append (a b : List FileCtx) (s : Store) (st : Stats) :
    scan_loop (a ++ b) s st = scan_loop b (scan_loop a s st).1 (scan_loop a s st).2 := by
  unfold scan_loop
  rw [List.foldl_append]

/-- The scan loop preserves the counter balance of claim C10. -/
theorem scan_loop_balanced (files : List FileCtx) (s : Store) (st : Stats)
    (hb : statsBalanced st) : statsBalanced (scan_loop files s st).2 := by
  induction files generalizing s st with
  | nil => exact hb
  | cons f rest ih =>
    rw [scan_loop_cons]
    apply ih
    unfold statsBalanced at hb ⊢
    rcases process_file_shape f s st with ⟨he, h1, h2, h3, h4, h5⟩ |
        ⟨he, _, h1, h5, hsum⟩
    · simp only [he, if_true, ite_true]
      simp only [h1, h2, h3, h4, h5]
      omega
    · simp only [he, if_false, ite_false, Bool.false_eq_true]
      omega

/-- Every file handed to the scan loop is counted in `scanned` exactly once,
whether it succeeds or raises. -/
theorem scan_loop_scanned (files : List FileCtx) (s : Store) (st : Stats) :
    (scan_loop files s st).2.scanned = st.scanned + files.length := by
  induction files generalizing s st with
  | nil => rfl
  | cons f rest ih =>
    rw [scan_loop_cons, ih]
    rcases process_file_shape f s st with ⟨he, h1, _⟩ | ⟨he, _, h1, _⟩ <;>
      simp only [he, if_true, if_false, ite_true, ite_false, Bool.false_eq_true,
        List.length_cons] <;>
      simp [h1] <;> omega

/-- Claim C9: when processing of one file raises an exception at any stage,
the exception is caught by the scan loop, the `errors` counter is
incremented by exactly one for that file (the file's own processing never
touches `errors`), and the loop continues with every remaining file — each
of which is still scanned, so the final `scanned` count covers the whole
list. -/
theorem C9_per_file_error_containment (fs1 fs2 : List FileCtx) (f : FileCtx)
    (s : Store) (st : Stats)
    (herr : (process_file f (scan_loop fs1 s st).1 (scan_loop fs1 s st).2).error = true) :
    scan_loop (fs1 ++ f :: fs2) s st =
      scan_loop fs2 (process_file f (scan_loop fs1 s st).1 (scan_loop fs1 s st).2).store
        { (process_file f (scan_loop fs1 s st).1 (scan_loop fs1 s st).2).stats with
          errors :=
            (process_file f (scan_loop fs1 s st).1 (scan_loop fs1 s st).2).stats.errors + 1 } ∧
    (process_file f (scan_loop fs1 s st).1 (scan_loop fs1 s st).2).stats.errors =
      (scan_loop fs1 s st).2.errors ∧
    (scan_loop (fs1 ++ f :: fs2) s st).2.scanned =
      st.scanned + fs1.length + 1 + fs2.length := by
  have hpart1 : scan_loop (fs1 ++ f :: fs2) s st =
      scan_loop fs2 (process_file f (scan_loop fs1 s st).1 (scan_loop fs1 s st).2).store
        { (process_file f (scan_loop fs1 s st).1 (scan_loop fs1 s st).2).stats with
          errors :=
            (process_file f (scan_loop fs1 s st).1 (scan_loop fs1 s st).2).stats.errors + 1 } := by
    rw [scan_loop_append, scan_loop_cons]
    simp only [herr, if_true, ite_true]
  have hpart2 : (process_file f (scan_loop fs1 s st).1 (scan_loop fs1 s st).2).stats.errors =
      (scan_loop fs1 s st).2.errors := by
    rcases process_file_shape f (scan_loop fs1 s st).1 (scan_loop fs1 s st).2 with
entry|entry2
    · exact entry.2.2.2.2.2
    · exact entry2.2.2.2.1
  have hpart3 : (scan_loop (fs1 ++ f :: fs2) s st).2.scanned =
      st.scanned + fs1.length + 1 + fs2.length := by
    rw [hpart1, scan_loop_scanned]
    have hs1 : (process_file f (scan_loop fs1 s st).1
        (scan_loop fs1 s st).2).stats.scanned = (scan_loop fs1 s st).2.scanned + 1 := by
      rcases process_file_shape f (scan_loop fs1 s st).1 (scan_loop fs1 s st).2 with
entry|entry2
      · exact entry.2.1
      · exact entry2.2.2.1
    have hs2 : (scan_loop fs1 s st).2.scanned = st.scanned + fs1.length :=
      scan_loop_scanned fs1 s st
    simp only [hs1, hs2]
  exact ⟨hpart1, hpart2, hpart3⟩

/-- Witness for C9: a file whose hashing raises, followed by a good file;
the error is contained and the second file is still processed. -/
theorem C9_per_file_error_containment_witness :
    scan_loop ([] ++ exCtxHashFail :: [exCtx]) exStore0 Stats.init =
      scan_loop [exCtx]
        (process_file exCtxHashFail (scan_loop [] exStore0 Stats.init).1
          (scan_loop [] exStore0 Stats.init).2).store
        { (process_file exCtxHashFail (scan_loop [] exStore0 Stats.init).1
            (scan_loop [] exStore0 Stats.init).2).stats with
          errors :=
            (process_file exCtxHashFail (scan_loop [] exStore0 Stats.init).1
              (scan_loop [] exStore0 Stats.init).2).stats.errors + 1 } ∧
    (process_file exCtxHashFail (scan_loop [] exStore0 Stats.init).1
      (scan_loop [] exStore0 Stats.init).2).stats.errors =
      (scan_loop [] exStore0 Stats.init).2.errors ∧
    (scan_loop ([] ++ exCtxHashFail :: [exCtx]) exStore0 Stats.init).2.scanned =
      Stats.init.scanned + List.length ([] : List FileCtx) + 1 + List.length [exCtx] :=
  C9_per_file_error_containment [] [exCtx] exCtxHashFail exStore0 Stats.init rfl

/-- Claim C10: at the end of every run started from the fresh statistics of
`DesignIngester.__init__`, the `scanned` counter equals the sum of the
`skipped_duplicate`, `new_designs`, `new_versions` and `errors` counters:
every processed file contributes exactly one terminal outcome. -/
theorem C10_counter_balance (files : List FileCtx) (s : Store) :
    (scan_loop files s Stats.init).2.scanned =
      (scan_loop files s Stats.init).2.skipped_duplicate +
        (scan_loop files s Stats.init).2.new_designs +
        (scan_loop files s Stats.init).2.new_versions +
        (scan_loop files s Stats.init).2.errors :=
  scan_loop_balanced files s Stats.init rfl

/-! ### Claim C8: basic-metadata fallback -/

/-- Claim C8: for every filename, the basic-metadata fallback produces the
title obtained from the filename stem by replacing every `-` and `_` with a
space and title-casing the result, with the description empty, the three
list fields empty, and the four optional fields absent; the spec's example
`"cool_box_v2.dxf" → "Cool Box V2"` is included. -/
theorem C8_basic_metadata (filename : String) :
    (generate_basic_metadata filename).title =
      pyTitle (String.mk ((pathStem filename).toList.map
        (fun c => if c = '-' ∨ c = '_' then ' ' else c))) ∧
    (generate_basic_metadata filename).description = "" ∧
    (generate_basic_metadata filename).materials = [] ∧
    (generate_basic_metadata filename).categories = [] ∧
    (generate_basic_metadata filename).tags = [] ∧
    (generate_basic_metadata filename).project_type = none ∧
    (generate_basic_metadata filename).difficulty = none ∧
    (generate_basic_metadata filename).style = none ∧
    (generate_basic_metadata filename).approx_dimensions = none ∧
    (generate_basic_metadata "cool_box_v2.dxf").title = "Cool Box V2" := by
  refine ⟨?_, rfl, rfl, rfl, rfl, rfl, rfl, rfl, rfl, rfl⟩
  show pyTitle (String.mk (((pathStem filename).toList.map fun c =>
      if c = '-' then ' ' else c).map fun c => if c = '_' then ' ' else c)) = _
  rw [List.map_map]
  have hfg : ((fun c => if c = '_' then ' ' else c) ∘ fun c : Char =>
      if c = '-' then ' ' else c)
      = (fun c : Char => if c = '-' ∨ c = '_' then ' ' else c) := by
    funext c
    simp only [Function.comp_apply]
    by_cases h1 : c = '-'
    · subst h1
      rfl
    · by_cases h2 : c = '_'
      · subst h2
        rfl
      · rw [if_neg h1, if_neg h2, if_neg (by simp [h1, h2])]
  rw [hfg]

end Ingest
